import Mathlib

/-!
Shallow embedding of the scoring/ranking engine of `go-rerankers`
(package `pkg/reranker`: `gguf_local.go` in its two variants,
`cross_encoder.go`, `types.go`).

Modelling conventions:
- Go `float64` scores and embedding entries are modelled as `ℚ` in the
  control-flow layer (caching, sentinel scores, sorting, filtering,
  truncation), where only ordering and equality of scores matter; the
  cosine-similarity arithmetic, which needs square roots, is modelled
  over `ℝ` in its own section.
- Spawning the external `llama-embedding` process is not code of this
  repository; each function that runs the binary is parameterised by an
  oracle returning what the repository code then inspects (the primary
  rank score, the fallback similarity score, or the decoded JSON
  embedding response).  All control flow around those oracles is
  translated from the Go source.
- Go maps used as caches are modelled as association lists with
  `List.lookup`; insertion conses a fresh pair (the code only inserts on
  a cache miss, so no key is ever overwritten).
- `sort.Slice` is unstable and only guarantees some permutation that is
  non-increasing under the `less` function; we model it with an
  insertion sort.  Every property proved about sorted output
  (length, membership, multiset content, pairwise order) is invariant
  under the choice of sorted permutation.
-/

namespace GoRerankers

/-- Model of `Document` from `pkg/reranker/types.go`.  `Meta` is an opaque
key/value map never inspected by the engine; it is modelled as an
association list with string values. -/
structure Document where
  id : String
  content : String
  score : ℚ
  meta : List (String × String)
  deriving DecidableEq

/-- Model of `RerankResult` from `pkg/reranker/types.go`: a document, its
score, and its index in the input list before sorting. -/
structure RerankResult where
  document : Document
  score : ℚ
  index : Nat
  deriving DecidableEq

/-- Model of `Config` from `pkg/reranker/types.go` (the fields the engine
reads: model path, maximum result count, threshold).  `Device` and the
free-form `Options` map are only used to build the external process
command line, which lives behind the oracles. -/
structure Config where
  model : String
  maxDocs : Int
  threshold : ℚ
  deriving DecidableEq

/-- The identity of a document apart from its mutable score field. -/
def dropScore (d : Document) : String × String × List (String × String) :=
  (d.id, d.content, d.meta)

/-! ### Models of the Go standard-library string helpers

The engine uses `strings.Split`, `strings.TrimSpace`, `strings.Fields`,
`strings.Contains`, `strings.ToLower`, `len` (byte length) and
`strconv.ParseFloat`.  These are standard-library functions, modelled
here executably over `String.toList`. -/

/-- Model of Go `strings.Split(s, sep)` for a one-character separator:
splits on every occurrence, keeping empty segments (`Split("", sep)`
is `[""]`). -/
def splitOnCharAux (sep : Char) (cur : List Char) : List Char → List (List Char)
  | [] => [cur.reverse]
  | c :: cs =>
    if c == sep then cur.reverse :: splitOnCharAux sep [] cs
    else splitOnCharAux sep (c :: cur) cs

def splitOnCharM (sep : Char) (s : String) : List String :=
  (splitOnCharAux sep [] s.toList).map String.mk

/-- Model of Go `strings.TrimSpace`: drop leading and trailing
whitespace. -/
def trimM (s : String) : String :=
  String.mk (((s.toList.dropWhile Char.isWhitespace).reverse.dropWhile
    Char.isWhitespace).reverse)

/-- Model of Go `strings.Fields`: the maximal runs of non-whitespace
characters. -/
def fieldsAux (cur : List Char) : List Char → List (List Char)
  | [] => if cur.isEmpty then [] else [cur.reverse]
  | c :: cs =>
    if c.isWhitespace then
      if cur.isEmpty then fieldsAux [] cs else cur.reverse :: fieldsAux [] cs
    else fieldsAux (c :: cur) cs

def fieldsM (s : String) : List String :=
  (fieldsAux [] s.toList).map String.mk

/-- Whether `pre` is a leading segment of `l`. -/
def leadsM : List Char → List Char → Bool
  | [], _ => true
  | _ :: _, [] => false
  | a :: as, b :: bs => a == b && leadsM as bs

def containsAux (needle : List Char) : List Char → Bool
  | [] => needle.isEmpty
  | c :: cs => leadsM needle (c :: cs) || containsAux needle cs

/-- Model of Go `strings.Contains(s, sub)`. -/
def containsSubstrM (s sub : String) : Bool :=
  containsAux sub.toList s.toList

/-- Model of Go `strings.ToLower` (faithful on ASCII input). -/
def lowerM (s : String) : String :=
  String.mk (s.toList.map Char.toLower)

/-- Model of Go `len(s)` on a string: its UTF-8 byte length. -/
def goLen (s : String) : Nat :=
  (s.toList.map Char.utf8Size).sum

/-- The natural number denoted by a list of decimal digits. -/
def natOfDigits (cs : List Char) : Nat :=
  cs.foldl (fun a c => a * 10 + (c.toNat - '0'.toNat)) 0

/-- Model of Go `strconv.ParseFloat(s, 64)` restricted to plain decimal
literals (optional sign, integer digits, optional fractional digits;
the engine's scores are printed in this form).  Returns `none` exactly
when the whole string is not such a literal. -/
def parseFloatM (s : String) : Option ℚ :=
  let cs := s.toList
  let signRest : ℚ × List Char :=
    match cs with
    | '-' :: r => (-1, r)
    | '+' :: r => (1, r)
    | r => (1, r)
  let intPart := signRest.2.takeWhile Char.isDigit
  let rest := signRest.2.dropWhile Char.isDigit
  match rest with
  | [] => if intPart.isEmpty then none else some (signRest.1 * (natOfDigits intPart : ℚ))
  | '.' :: frac =>
    if frac.all Char.isDigit && !(intPart.isEmpty && frac.isEmpty) then
      some (signRest.1 *
        ((natOfDigits intPart : ℚ) + (natOfDigits frac : ℚ) / (10 : ℚ) ^ frac.length))
    else none
  | _ => none

/-! ### Model of `sort.Slice(xs, func(i, j) { return key(xs[i]) > key(xs[j]) })`

Go's sort is unstable: it guarantees only some permutation of the input
that is non-increasing in `key`.  We model it by insertion sort and prove
it yields a permutation that is `Pairwise (fun a b => key b ≤ key a)`;
every property we prove about sorted output is invariant under which
sorted permutation the runtime picks. -/

def insertDesc {α : Type} (key : α → ℚ) (x : α) : List α → List α
  | [] => [x]
  | y :: ys => if key y < key x then x :: y :: ys else y :: insertDesc key x ys

def sortDesc {α : Type} (key : α → ℚ) (l : List α) : List α :=
  l.foldr (insertDesc key) []

theorem perm_insertDesc {α : Type} (key : α → ℚ) (x : α) :
    ∀ l : List α, (insertDesc key x l).Perm (x :: l) := by
  intro l
  induction l with
  | nil => exact List.Perm.refl _
  | cons y ys ih =>
    by_cases h : key y < key x
    · simp [insertDesc, h]
    · simp only [insertDesc, h, if_false]
      exact (ih.cons y).trans (List.Perm.swap x y ys)

theorem perm_sortDesc {α : Type} (key : α → ℚ) :
    ∀ l : List α, (sortDesc key l).Perm l := by
  intro l
  induction l with
  | nil => exact List.Perm.refl _
  | cons x xs ih =>
    exact (perm_insertDesc key x (sortDesc key xs)).trans (ih.cons x)

theorem length_sortDesc {α : Type} (key : α → ℚ) (l : List α) :
    (sortDesc key l).length = l.length :=
  (perm_sortDesc key l).length_eq

theorem pairwise_insertDesc {α : Type} (key : α → ℚ) (x : α) :
    ∀ l : List α, l.Pairwise (fun a b => key b ≤ key a) →
      (insertDesc key x l).Pairwise (fun a b => key b ≤ key a) := by
  intro l
  induction l with
  | nil => intro _; simp [insertDesc]
  | cons y ys ih =>
    intro hl
    rcases List.pairwise_cons.mp hl with ⟨hy, hys⟩
    by_cases h : key y < key x
    · simp only [insertDesc, h, if_true]
      refine List.pairwise_cons.mpr ⟨?_, hl⟩
      intro z hz
      rcases List.mem_cons.mp hz with hz | hz
      · exact hz ▸ le_of_lt h
      · exact le_trans (hy z hz) (le_of_lt h)
    · simp only [insertDesc, h, if_false]
      refine List.pairwise_cons.mpr ⟨?_, ih hys⟩
      intro z hz
      have hz' : z ∈ x :: ys := (perm_insertDesc key x ys).mem_iff.mp hz
      rcases List.mem_cons.mp hz' with hz' | hz'
      · exact hz' ▸ le_of_not_lt h
      · exact hy z hz'

theorem pairwise_sortDesc {α : Type} (key : α → ℚ) :
    ∀ l : List α, (sortDesc key l).Pairwise (fun a b => key b ≤ key a) := by
  intro l
  induction l with
  | nil => simp [sortDesc]
  | cons x xs ih => exact pairwise_insertDesc key x (sortDesc key xs) ih

/-- The threshold-filter and `MaxDocs`-truncation lines that both
variants' `Rerank` contain verbatim, applied to the already-sorted
document list: keep the documents with `Score >= Threshold`, and cut to
`MaxDocs` when longer. -/
def rerankFilterTruncate (cfg : Config) (sorted : List Document) : List Document :=
  if cfg.maxDocs <
      ((sorted.filter (fun d => cfg.threshold ≤ d.score)).length : Int) then
    (sorted.filter (fun d => cfg.threshold ≤ d.score)).take cfg.maxDocs.toNat
  else sorted.filter (fun d => cfg.threshold ≤ d.score)

/-- The sort, threshold-filter and `topN`-truncation lines that the
`Rank` implementations contain verbatim: sort the results descending by
score, keep those with `Score >= Threshold`, and cut to `topN` when
`topN > 0` and the filtered list is longer. -/
def rankPipeline (cfg : Config) (topN : Int) (results : List RerankResult) :
    List RerankResult :=
  if 0 < topN ∧ topN <
      ((((sortDesc RerankResult.score results).filter
        (fun r => cfg.threshold ≤ r.score)).length : Int)) then
    (((sortDesc RerankResult.score results).filter
      (fun r => cfg.threshold ≤ r.score))).take topN.toNat
  else
    ((sortDesc RerankResult.score results).filter
      (fun r => cfg.threshold ≤ r.score))

theorem length_rankPipeline_le (cfg : Config) (topN : Int)
    (results : List RerankResult) (htop : 0 < topN) :
    (rankPipeline cfg topN results).length ≤ min topN.toNat results.length := by
  unfold rankPipeline
  generalize hF : (sortDesc RerankResult.score results).filter
    (fun r => cfg.threshold ≤ r.score) = filtered
  have hfl : filtered.length ≤ results.length := by
    rw [← hF]
    exact le_trans (List.length_filter_le _ _) (le_of_eq (length_sortDesc _ _))
  by_cases hc : 0 < topN ∧ topN < (filtered.length : Int)
  · rw [if_pos hc, List.length_take]
    exact le_min (min_le_left _ _) (le_trans (min_le_right _ _) hfl)
  · rw [if_neg hc]
    refine le_min ?_ hfl
    have hnl : ¬ topN < (filtered.length : Int) := fun h => hc ⟨htop, h⟩
    have := Int.toNat_le_toNat (le_of_not_lt hnl)
    simpa using this

theorem mem_rankPipeline (cfg : Config) (topN : Int) (results : List RerankResult)
    (r : RerankResult) (hr : r ∈ rankPipeline cfg topN results) :
    cfg.threshold ≤ r.score := by
  unfold rankPipeline at hr
  split at hr
  · exact of_decide_eq_true
      (List.mem_filter.mp ((List.take_sublist _ _).subset hr)).2
  · exact of_decide_eq_true (List.mem_filter.mp hr).2

theorem pairwise_rankPipeline (cfg : Config) (topN : Int)
    (results : List RerankResult) :
    (rankPipeline cfg topN results).Pairwise (fun a b => b.score ≤ a.score) := by
  unfold rankPipeline
  have hp : ((sortDesc RerankResult.score results).filter
      (fun r => cfg.threshold ≤ r.score)).Pairwise (fun a b => b.score ≤ a.score) :=
    (pairwise_sortDesc RerankResult.score results).sublist (List.filter_sublist _)
  split
  · exact hp.sublist (List.take_sublist _ _)
  · exact hp

theorem mem_rerankFilterTruncate (cfg : Config) (sorted : List Document)
    (d : Document) (hd : d ∈ rerankFilterTruncate cfg sorted) :
    cfg.threshold ≤ d.score := by
  unfold rerankFilterTruncate at hd
  split at hd
  · exact of_decide_eq_true
      (List.mem_filter.mp ((List.take_sublist _ _).subset hd)).2
  · exact of_decide_eq_true (List.mem_filter.mp hd).2

theorem pairwise_rerankFilterTruncate (cfg : Config) (sorted : List Document)
    (hs : sorted.Pairwise (fun a b => b.score ≤ a.score)) :
    (rerankFilterTruncate cfg sorted).Pairwise (fun a b => b.score ≤ a.score) := by
  unfold rerankFilterTruncate
  have hp : (sorted.filter (fun d => cfg.threshold ≤ d.score)).Pairwise
      (fun a b => b.score ≤ a.score) := hs.sublist (List.filter_sublist _)
  split
  · exact hp.sublist (List.take_sublist _ _)
  · exact hp

/-! ### GGUF local reranker, rank-pooling variant (`gguf_local.go`, first file)

The score cache `scoreCache map[string]float64` is modelled as an
association list.  The two process-running helpers
`tryRerankerInference` (run `llama-embedding --pooling rank` and parse)
and `computeEmbeddingSimilarity` (two embedding runs plus cosine) are
passed in as oracles `tryRerank` and `fallback`; their own internals are
modelled separately below (`parseRerankerScore`, `getEmbedding`,
`cosineSimilarity`). -/

namespace GGUF

/-- The score cache: Go `map[string]float64`. -/
abbrev Cache := List (String × ℚ)

/-- The cache key built in `computeRerankerScore`:
`fmt.Sprintf("%s|||%s", query, document)`. -/
def cacheKey (query document : String) : String :=
  query ++ "|||" ++ document

/-- `GGUFLocalReranker.computeRerankerScore`: check the cache; on a miss
try the primary rank inference, caching its score on success; otherwise
fall back to embedding similarity, caching its score on success; if both
fail, return the fallback's error (the Go code returns `0.0, err`) and
leave the cache unchanged.  Returns the result together with the updated
cache. -/
def computeRerankerScore (tryRerank fallback : String → String → Except String ℚ)
    (cache : Cache) (query document : String) : Except String ℚ × Cache :=
  match List.lookup (cacheKey query document) cache with
  | some cached => (Except.ok cached, cache)
  | none =>
    match tryRerank query document with
    | Except.ok score => (Except.ok score, (cacheKey query document, score) :: cache)
    | Except.error _ =>
      match fallback query document with
      | Except.ok score => (Except.ok score, (cacheKey query document, score) :: cache)
      | Except.error e => (Except.error e, cache)

/-- The document loop of `GGUFLocalReranker.ComputeScore`: score each
document in order, threading the cache; a per-document failure becomes
the sentinel score `-5.0`. -/
def scoreLoop (tryRerank fallback : String → String → Except String ℚ)
    (query : String) : List Document → Cache → List ℚ × Cache
  | [], cache => ([], cache)
  | doc :: docs, cache =>
    match computeRerankerScore tryRerank fallback cache query doc.content with
    | (Except.ok score, cache') =>
      let rest := scoreLoop tryRerank fallback query docs cache'
      (score :: rest.1, rest.2)
    | (Except.error _, cache') =>
      let rest := scoreLoop tryRerank fallback query docs cache'
      (-5 :: rest.1, rest.2)

/-- `GGUFLocalReranker.ComputeScore` (rank-pooling variant): always
returns `nil` error; the empty-input early return `nil, nil` coincides
with the loop on `[]`. -/
def ComputeScore (tryRerank fallback : String → String → Except String ℚ)
    (cache : Cache) (query : String) (documents : List Document) :
    Except String (List ℚ) × Cache :=
  (Except.ok (scoreLoop tryRerank fallback query documents cache).1,
   (scoreLoop tryRerank fallback query documents cache).2)

/-- The score-assignment loop `for i := range documents {
documents[i].Score = scores[i] }`, which writes onto the caller's
slice. -/
def applyScores (documents : List Document) (scores : List ℚ) : List Document :=
  List.zipWith (fun d s => { d with score := s }) documents scores

/-- `GGUFLocalReranker.Rerank` (rank-pooling variant).  The middle
component of the result is the caller's slice as the call leaves it:
Go's `documents[i].Score = ...` and `sort.Slice(documents, ...)` mutate
the caller's backing array in place, so after the call the caller sees
the scored, sorted list; the first component is the returned
threshold-filtered, `MaxDocs`-truncated list. -/
def Rerank (tryRerank fallback : String → String → Except String ℚ)
    (cfg : Config) (cache : Cache) (query : String) (documents : List Document) :
    Except String (List Document) × List Document × Cache :=
  if documents.isEmpty then (Except.ok documents, documents, cache)
  else
    match ComputeScore tryRerank fallback cache query documents with
    | (Except.error e, cache') => (Except.error e, documents, cache')
    | (Except.ok scores, cache') =>
      (Except.ok (rerankFilterTruncate cfg
         (sortDesc Document.score (applyScores documents scores))),
       sortDesc Document.score (applyScores documents scores), cache')

/-- `GGUFLocalReranker.Rank` (rank-pooling variant): build
`RerankResult` triples carrying each document's original index, sort
descending by score, filter by threshold, and truncate to `topN` when
`topN > 0`.  The caller's document slice is only read. -/
def Rank (tryRerank fallback : String → String → Except String ℚ)
    (cfg : Config) (cache : Cache) (query : String) (documents : List Document)
    (topN : Int) : Except String (List RerankResult) × Cache :=
  if documents.isEmpty then (Except.ok [], cache)
  else
    match ComputeScore tryRerank fallback cache query documents with
    | (Except.error e, cache') => (Except.error e, cache')
    | (Except.ok scores, cache') =>
      (Except.ok (rankPipeline cfg topN
         (List.zipWith (fun (p : Nat × Document) s => RerankResult.mk p.2 s p.1)
           documents.enum scores)),
       cache')

/-! #### The rank-score parser (`parseRerankerScore`) -/

/-- The inner token scan of `parseRerankerScore`: walk the
whitespace-split fields; at each field equal to `"score"` followed by at
least two more fields, try to parse the second following field (the one
after the index token such as `"0:"`) as a float; on parse failure keep
scanning. -/
def extractScoreFromParts : List String → Option ℚ
  | "score" :: idx :: tok :: rest =>
    (match parseFloatM tok with
     | some v => some v
     | none => extractScoreFromParts (idx :: tok :: rest))
  | _ :: rest => extractScoreFromParts rest
  | [] => none

/-- One line of the stderr scan: trim the line, and if it contains the
marker phrase `"rerank score"`, attempt the token extraction. -/
def lineScore (line : String) : Option ℚ :=
  let t := trimM line
  if containsSubstrM t "rerank score" then extractScoreFromParts (fieldsM t)
  else none

/-- `GGUFLocalReranker.parseRerankerScore`: scan the stderr lines for
the first extractable rank score; failing that, if stdout is nonempty,
parse its trimmed text as a single float; otherwise report a parse
error. -/
def parseRerankerScore (stdout stderr : String) : Except String ℚ :=
  match (splitOnCharM '\n' stderr).findSome? lineScore with
  | some score => Except.ok score
  | none =>
    if stdout ≠ "" then
      match parseFloatM (trimM stdout) with
      | some score => Except.ok score
      | none => Except.error "could not parse reranker score from output"
    else Except.error "could not parse reranker score from output"

/-- The claim's description of the parser, written from the spec's
words: return the first floating-point value found on a diagnostic line
containing the marker phrase; if no diagnostic line yields one, parse
the entire trimmed standard output as a single float; if neither
succeeds, return a parse error. -/
def parseRerankerScoreSpec (stdout stderr : String) : Except String ℚ :=
  match ((splitOnCharM '\n' stderr).filterMap lineScore).head? with
  | some score => Except.ok score
  | none =>
    match parseFloatM (trimM stdout) with
    | some score => Except.ok score
    | none => Except.error "could not parse reranker score from output"

/-! #### Embedding extraction (`getEmbedding`), rank-pooling variant -/

/-- The decoded `EmbeddingResponse.Data`: one embedding vector per
result entry (the `Object`/`Index` fields are never read). -/
abbrev EmbResponse := List (List ℚ)

/-- `GGUFLocalReranker.getEmbedding`: run the embedding command and
decode its JSON output (both modelled by the oracle `run`); fail if the
decoded result list is empty; otherwise return the first entry's
vector.  Note: this variant performs no all-zeros check. -/
def getEmbedding (run : String → Except String EmbResponse) (text : String) :
    Except String (List ℚ) :=
  match run text with
  | Except.error e => Except.error ("embedding command failed: " ++ e)
  | Except.ok response =>
    match response with
    | [] => Except.error "no embedding data returned"
    | embedding :: _ => Except.ok embedding

end GGUF

/-! ### Cosine similarity and the embedding-similarity fallback
(`cosineSimilarity`, `computeEmbeddingSimilarity` in `gguf_local.go`)

These are the only places where the numeric value of a score is
computed rather than moved around, and they need square roots, so they
are modelled over `ℝ`.  The Go loop accumulates the dot product and the
two sums of squares in one pass; we write them as list sums. -/

/-- Sum of squares of a vector's entries (the Go `normA`/`normB`
accumulators; the square root is taken only at the end). -/
def sumSq (a : List ℝ) : ℝ :=
  (a.map (fun x => x * x)).sum

/-- Dot product of two vectors (over their common length). -/
def dotList (a b : List ℝ) : ℝ :=
  ((a.zip b).map (fun p => p.1 * p.2)).sum

open Classical in
/-- `cosineSimilarity` from `gguf_local.go`: `0.0` on a length mismatch
or when either sum of squares is zero, otherwise the dot product divided
by the product of the two Euclidean norms. -/
noncomputable def cosineSimilarity (a b : List ℝ) : ℝ :=
  if a.length ≠ b.length then 0
  else if sumSq a = 0 ∨ sumSq b = 0 then 0
  else dotList a b / (Real.sqrt (sumSq a) * Real.sqrt (sumSq b))

/-- `GGUFLocalReranker.computeEmbeddingSimilarity`: embed the query and
the document (via `getEmbedding`, behind the oracle `embed`), wrap
either failure, and return the cosine similarity scaled by `10.0`. -/
noncomputable def computeEmbeddingSimilarity
    (embed : String → Except String (List ℝ)) (query document : String) :
    Except String ℝ :=
  match embed query with
  | Except.error e => Except.error ("failed to get query embedding: " ++ e)
  | Except.ok queryEmb =>
    match embed document with
    | Except.error e => Except.error ("failed to get document embedding: " ++ e)
    | Except.ok docEmb => Except.ok (cosineSimilarity queryEmb docEmb * 10)

/-! ### GGUF local reranker, embedding variant (`gguf_local.go`, second file)

This variant caches embeddings (`embeddingCache map[string][]float64`)
rather than scores.  `computeEmbedding` checks the decoded response for
an empty result list and for an all-zero vector.  The similarity
function applied to two cached vectors is abstracted as `simFn` (its
real-number content is `cosineSimilarity` above); the claims about this
variant concern lengths, error handling, and caching, none of which
depend on the similarity value. -/

namespace GGUFEmb

/-- The embedding cache: Go `map[string][]float64`. -/
abbrev EmbCache := List (String × List ℚ)

/-- The all-zeros scan in `computeEmbedding` (`allZeros` stays true for
an empty vector, exactly as the Go loop leaves it). -/
def allZeros (v : List ℚ) : Bool :=
  v.all (fun val => val == 0)

/-- `GGUFLocalReranker.computeEmbedding` (embedding variant): serve from
the cache; on a miss run the embedding command and decode its JSON
output (oracle `run`); fail on an empty result list; fail if the first
entry's vector is entirely zero; otherwise cache and return that
vector. -/
def computeEmbedding (run : String → Except String GGUF.EmbResponse)
    (cache : EmbCache) (text : String) : Except String (List ℚ) × EmbCache :=
  match List.lookup text cache with
  | some cached => (Except.ok cached, cache)
  | none =>
    match run text with
    | Except.error e => (Except.error ("embedding command failed: " ++ e), cache)
    | Except.ok response =>
      match response with
      | [] => (Except.error "no embedding data returned", cache)
      | embedding :: _ =>
        if allZeros embedding then
          (Except.error "embedding computation returned all zeros", cache)
        else (Except.ok embedding, (text, embedding) :: cache)

/-- The document loop of the embedding variant's `ComputeScore`: embed
each document in order, threading the cache; a failed document embedding
becomes the sentinel score `-1.0`, otherwise the score is the similarity
with the query embedding scaled by `10.0`. -/
def scoreLoop (run : String → Except String GGUF.EmbResponse)
    (simFn : List ℚ → List ℚ → ℚ) (queryEmbedding : List ℚ) :
    List Document → EmbCache → List ℚ × EmbCache
  | [], cache => ([], cache)
  | doc :: docs, cache =>
    match computeEmbedding run cache doc.content with
    | (Except.error _, cache') =>
      let rest := scoreLoop run simFn queryEmbedding docs cache'
      (-1 :: rest.1, rest.2)
    | (Except.ok docEmbedding, cache') =>
      let rest := scoreLoop run simFn queryEmbedding docs cache'
      (simFn queryEmbedding docEmbedding * 10 :: rest.1, rest.2)

/-- `GGUFLocalReranker.ComputeScore` (embedding variant): empty input
returns `nil, nil`; a failed query embedding aborts the whole call with
an error; per-document failures become the sentinel `-1.0`. -/
def ComputeScore (run : String → Except String GGUF.EmbResponse)
    (simFn : List ℚ → List ℚ → ℚ) (cache : EmbCache) (query : String)
    (documents : List Document) : Except String (List ℚ) × EmbCache :=
  if documents.isEmpty then (Except.ok [], cache)
  else
    match computeEmbedding run cache query with
    | (Except.error e, cache') =>
      (Except.error ("failed to compute query embedding: " ++ e), cache')
    | (Except.ok queryEmbedding, cache') =>
      let rest := scoreLoop run simFn queryEmbedding documents cache'
      (Except.ok rest.1, rest.2)

/-- `GGUFLocalReranker.Rerank` (embedding variant); identical pipeline
to the rank-pooling variant's `Rerank`, over this variant's
`ComputeScore`.  The middle component is again the caller's slice as
the in-place mutation and sort leave it. -/
def Rerank (run : String → Except String GGUF.EmbResponse)
    (simFn : List ℚ → List ℚ → ℚ) (cfg : Config) (cache : EmbCache)
    (query : String) (documents : List Document) :
    Except String (List Document) × List Document × EmbCache :=
  if documents.isEmpty then (Except.ok documents, documents, cache)
  else
    match ComputeScore run simFn cache query documents with
    | (Except.error e, cache') => (Except.error e, documents, cache')
    | (Except.ok scores, cache') =>
      (Except.ok (rerankFilterTruncate cfg
         (sortDesc Document.score (GGUF.applyScores documents scores))),
       sortDesc Document.score (GGUF.applyScores documents scores), cache')

end GGUFEmb

/-! ### Cross-encoder reranker (`cross_encoder.go`)

`calculateScores` is a deterministic in-process word-overlap scorer, so
no oracle is needed.  Go's `len(qword) < 2` is a byte-length test
(`goLen`). -/

namespace CrossEncoder

/-- The model-name constants from `cross_encoder.go` whose score range
is `similarity*20 - 10` in the `switch` of `calculateScores`. -/
def bgeStyleModels : List String :=
  ["BAAI/bge-reranker-large", "BAAI/bge-reranker-base", "BAAI/bge-reranker-v2-m3",
   "BAAI/bge-reranker-v2-gemma", "BAAI/bge-reranker-v2-minicpm-layerwise",
   "Qwen/Qwen3-Reranker-0.6B", "Qwen/Qwen3-Reranker-4B", "Qwen/Qwen3-Reranker-8B",
   "mixedbread-ai/mxbai-rerank-large-v1", "mixedbread-ai/mxbai-rerank-large-v2",
   "jinaai/jina-reranker-v2-base-multilingual"]

/-- The inner match of `calculateScores`: a query word matches a content
word if they are equal or either contains the other. -/
def wordMatches (qword : String) (contentWords : List String) : Bool :=
  contentWords.any (fun cword =>
    qword == cword || containsSubstrM cword qword || containsSubstrM qword cword)

/-- One pair's score in `CrossEncoderReranker.calculateScores`:
lower-case both texts, split into fields, score `-5.0` if either side
has no words; otherwise count the matched query words of byte length at
least 2, score `-5.0` if none is considered, and map the match ratio
into the model-dependent range. -/
def calculateScore (modelPath query content : String) : ℚ :=
  let queryWords := fieldsM (lowerM query)
  let contentWords := fieldsM (lowerM content)
  if queryWords.isEmpty || contentWords.isEmpty then -5
  else
    let considered := queryWords.filter (fun w => ¬ goLen w < 2)
    let matched := (considered.filter (fun w => wordMatches w contentWords)).length
    if considered.length = 0 then -5
    else
      let similarity : ℚ := (matched : ℚ) / (considered.length : ℚ)
      if modelPath ∈ bgeStyleModels then similarity * 20 - 10
      else similarity * 15 - 5

/-- `CrossEncoderReranker.calculateScores` over the query/content pairs
built by the callers. -/
def calculateScores (modelPath : String) (pairs : List (String × String)) : List ℚ :=
  pairs.map (fun pair => calculateScore modelPath pair.1 pair.2)

/-- `CrossEncoderReranker.ComputeScore`: build the (query, content)
pairs and score them; this function never returns a Go error. -/
def ComputeScore (modelPath query : String) (documents : List Document) : List ℚ :=
  calculateScores modelPath (documents.map (fun doc => (query, doc.content)))

/-- `CrossEncoderReranker.Rank`: same sort/filter/truncate pipeline as
the GGUF `Rank`s, over the cross-encoder scores (whose computation
cannot fail, so no error case arises). -/
def Rank (modelPath : String) (cfg : Config) (query : String)
    (documents : List Document) (topN : Int) : List RerankResult :=
  if documents.isEmpty then []
  else
    rankPipeline cfg topN
      (List.zipWith (fun (p : Nat × Document) s => RerankResult.mk p.2 s p.1)
        documents.enum (ComputeScore modelPath query documents))

end CrossEncoder

/-! ### Helper lemmas -/

namespace GGUF

/-- The score a loop iteration records for one document: the computed
score on success, the sentinel `-5.0` on failure. -/
def loopScore (r : Except String ℚ × Cache) : ℚ :=
  match r.1 with
  | Except.ok s => s
  | Except.error _ => -5

theorem length_scoreLoop (tryRerank fallback : String → String → Except String ℚ)
    (query : String) :
    ∀ (documents : List Document) (cache : Cache),
      (scoreLoop tryRerank fallback query documents cache).1.length = documents.length := by
  intro documents
  induction documents with
  | nil => intro cache; rfl
  | cons doc docs ih =>
    intro cache
    simp only [scoreLoop]
    rcases h : computeRerankerScore tryRerank fallback cache query doc.content with ⟨res, cache'⟩
    cases res <;> simp [ih]

theorem scoreLoop_cons (tryRerank fallback : String → String → Except String ℚ)
    (query : String) (doc : Document) (docs : List Document) (cache : Cache) :
    (scoreLoop tryRerank fallback query (doc :: docs) cache).1 =
      loopScore (computeRerankerScore tryRerank fallback cache query doc.content) ::
        (scoreLoop tryRerank fallback query docs
          (computeRerankerScore tryRerank fallback cache query doc.content).2).1 ∧
    (scoreLoop tryRerank fallback query (doc :: docs) cache).2 =
      (scoreLoop tryRerank fallback query docs
        (computeRerankerScore tryRerank fallback cache query doc.content).2).2 := by
  simp only [scoreLoop]
  rcases h : computeRerankerScore tryRerank fallback cache query doc.content with ⟨res, cache'⟩
  cases res <;> simp [loopScore, h]

theorem lookup_computeRerankerScore_mono
    (tryRerank fallback : String → String → Except String ℚ)
    (cache : Cache) (query document k : String) (s : ℚ)
    (hk : List.lookup k cache = some s) :
    List.lookup k (computeRerankerScore tryRerank fallback cache query document).2 =
      some s := by
  unfold computeRerankerScore
  rcases hc : List.lookup (cacheKey query document) cache with _ | cached
  · have hne : k ≠ cacheKey query document := by
      intro h; rw [h, hc] at hk; exact Option.noConfusion hk
    have hbeq : (k == cacheKey query document) = false := beq_false_of_ne hne
    cases htr : tryRerank query document with
    | ok score => simpa [List.lookup, hbeq] using hk
    | error e =>
      cases hfb : fallback query document with
      | ok score => simpa [List.lookup, hbeq] using hk
      | error e2 => simpa using hk
  · simpa using hk

theorem lookup_scoreLoop_mono (tryRerank fallback : String → String → Except String ℚ)
    (query k : String) (s : ℚ) :
    ∀ (documents : List Document) (cache : Cache),
      List.lookup k cache = some s →
      List.lookup k (scoreLoop tryRerank fallback query documents cache).2 = some s := by
  intro documents
  induction documents with
  | nil => intro cache hk; exact hk
  | cons doc docs ih =>
    intro cache hk
    rw [(scoreLoop_cons tryRerank fallback query doc docs cache).2]
    exact ih _ (lookup_computeRerankerScore_mono tryRerank fallback cache query
      doc.content k s hk)

theorem computeRerankerScore_cached
    (tryRerank fallback : String → String → Except String ℚ)
    (cache : Cache) (query document : String) (s : ℚ)
    (hc : List.lookup (cacheKey query document) cache = some s) :
    computeRerankerScore tryRerank fallback cache query document =
      (Except.ok s, cache) := by
  unfold computeRerankerScore
  rw [hc]

theorem scoreLoop_get? (tryRerank fallback : String → String → Except String ℚ)
    (query : String) :
    ∀ (documents : List Document) (cache : Cache) (i : Nat) (d : Document),
      documents.get? i = some d →
      (scoreLoop tryRerank fallback query documents cache).1.get? i =
        some (loopScore (computeRerankerScore tryRerank fallback
          (scoreLoop tryRerank fallback query (documents.take i) cache).2
          query d.content)) := by
  intro documents
  induction documents with
  | nil => intro cache i d h; simp at h
  | cons doc docs ih =>
    intro cache i d h
    rcases (scoreLoop_cons tryRerank fallback query doc docs cache) with ⟨h1, _⟩
    cases i with
    | zero =>
      simp only [List.get?] at h
      cases h
      rw [h1]
      rfl
    | succ i =>
      simp only [List.get?] at h
      rw [h1]
      simp only [List.get?]
      rw [ih _ i d h]
      have htake : (doc :: docs).take (i + 1) = doc :: docs.take i := rfl
      rw [htake, (scoreLoop_cons tryRerank fallback query doc (docs.take i) cache).2]

theorem length_applyScores (documents : List Document) (scores : List ℚ) :
    (applyScores documents scores).length = min documents.length scores.length := by
  simp [applyScores]

theorem map_dropScore_applyScores :
    ∀ (documents : List Document) (scores : List ℚ),
      documents.length = scores.length →
      (applyScores documents scores).map dropScore = documents.map dropScore := by
  intro documents
  induction documents with
  | nil => intro scores _; rfl
  | cons d docs ih =>
    intro scores h
    cases scores with
    | nil => simp at h
    | cons s ss =>
      have happ : applyScores (d :: docs) (s :: ss) =
          { d with score := s } :: applyScores docs ss := rfl
      rw [happ, List.map_cons, List.map_cons, ih ss (by simpa using h)]
      rfl

end GGUF

namespace GGUFEmb

set_option maxRecDepth 4096 in
theorem length_embScoreLoop (run : String → Except String GGUF.EmbResponse)
    (simFn : List ℚ → List ℚ → ℚ) (queryEmbedding : List ℚ) :
    ∀ (documents : List Document) (cache : EmbCache),
      (scoreLoop run simFn queryEmbedding documents cache).1.length =
        documents.length := by
  intro documents
  induction documents with
  | nil => intro cache; rfl
  | cons doc docs ih =>
    intro cache
    rw [scoreLoop]
    rcases h : computeEmbedding run cache doc.content with ⟨res, cache'⟩
    cases res <;> simp [ih]

end GGUFEmb

theorem findSome?_eq_head?_filterMap {α β : Type} (f : α → Option β) :
    ∀ l : List α, l.findSome? f = (l.filterMap f).head? := by
  intro l
  induction l with
  | nil => rfl
  | cons a l ih =>
    rw [List.findSome?_cons, List.filterMap_cons]
    cases h : f a with
    | none => simpa using ih
    | some b => simp

theorem GGUFEmb.length_of_computeScore_ok (run : String → Except String GGUF.EmbResponse)
    (simFn : List ℚ → List ℚ → ℚ) (q : String) :
    ∀ (docs : List Document) (c c' : GGUFEmb.EmbCache) (scores : List ℚ),
      GGUFEmb.ComputeScore run simFn c q docs = (Except.ok scores, c') →
      scores.length = docs.length := by
  intro docs
  cases docs with
  | nil =>
    intro c c' scores h
    unfold GGUFEmb.ComputeScore at h
    simp at h
    rw [h.1]
    rfl

  | cons d ds =>
    intro c c' scores h
    unfold GGUFEmb.ComputeScore at h
    rw [if_neg (by simp)] at h
    rcases hq : GGUFEmb.computeEmbedding run c q with ⟨res, c1⟩
    rw [hq] at h
    cases res with
    | error e => simp at h
    | ok qe =>
      simp only [Prod.mk.injEq, Except.ok.injEq] at h
      rw [← h.1]
      exact GGUFEmb.length_embScoreLoop run simFn qe (d :: ds) c1

theorem GGUF.Rerank_nonempty_eq (tryRerank fallback : String → String → Except String ℚ)
    (cfg : Config) (c : GGUF.Cache) (q : String) (docs : List Document)
    (hd : docs.isEmpty = false) :
    GGUF.Rerank tryRerank fallback cfg c q docs =
      (Except.ok (rerankFilterTruncate cfg (sortDesc Document.score
        (GGUF.applyScores docs (GGUF.scoreLoop tryRerank fallback q docs c).1))),
       sortDesc Document.score
         (GGUF.applyScores docs (GGUF.scoreLoop tryRerank fallback q docs c).1),
       (GGUF.scoreLoop tryRerank fallback q docs c).2) := by
  unfold GGUF.Rerank
  rw [if_neg (by simp [hd])]
  unfold GGUF.ComputeScore
  rfl

theorem GGUF.Rank_nonempty_eq (tryRerank fallback : String → String → Except String ℚ)
    (cfg : Config) (c : GGUF.Cache) (q : String) (docs : List Document) (topN : Int)
    (hd : docs.isEmpty = false) :
    GGUF.Rank tryRerank fallback cfg c q docs topN =
      (Except.ok (rankPipeline cfg topN
        (List.zipWith (fun (p : Nat × Document) s => RerankResult.mk p.2 s p.1)
          docs.enum (GGUF.scoreLoop tryRerank fallback q docs c).1)),
       (GGUF.scoreLoop tryRerank fallback q docs c).2) := by
  unfold GGUF.Rank
  rw [if_neg (by simp [hd])]
  unfold GGUF.ComputeScore
  rfl

theorem GGUFEmb.Rerank_ok_eq (run : String → Except String GGUF.EmbResponse)
    (simFn : List ℚ → List ℚ → ℚ) (cfg : Config) (c : GGUFEmb.EmbCache)
    (q : String) (docs : List Document) (scores : List ℚ) (c' : GGUFEmb.EmbCache)
    (hd : docs.isEmpty = false)
    (hcs : GGUFEmb.ComputeScore run simFn c q docs = (Except.ok scores, c')) :
    GGUFEmb.Rerank run simFn cfg c q docs =
      (Except.ok (rerankFilterTruncate cfg (sortDesc Document.score
        (GGUF.applyScores docs scores))),
       sortDesc Document.score (GGUF.applyScores docs scores), c') := by
  unfold GGUFEmb.Rerank
  rw [if_neg (by simp [hd]), hcs]

theorem CrossEncoder.crossRank_nonempty_eq (modelPath : String) (cfg : Config)
    (q : String) (docs : List Document) (topN : Int) (hd : docs.isEmpty = false) :
    CrossEncoder.Rank modelPath cfg q docs topN =
      rankPipeline cfg topN
        (List.zipWith (fun (p : Nat × Document) s => RerankResult.mk p.2 s p.1)
          docs.enum (CrossEncoder.ComputeScore modelPath q docs)) := by
  unfold CrossEncoder.Rank
  rw [if_neg (by simp [hd])]

deriving instance DecidableEq for Except

/-! ### The claims -/

/-- C10: the score-cache key function `(query, document) ↦ query ++ "|||"
++ document` is not injective: the distinct pairs `("a|||b", "c")` and
`("a", "b|||c")` produce the same cache key (both `"a|||b|||c"`) and so
share one cached score. -/
theorem claim_C10_cacheKey_not_injective :
    GGUF.cacheKey "a|||b" "c" = GGUF.cacheKey "a" "b|||c" ∧
    ("a|||b", "c") ≠ (("a", "b|||c") : String × String) := by
  constructor
  · decide
  · decide

/-- C5: the rank-score parser returns the first floating-point value
found on a diagnostic (stderr) line containing the rank-score marker
phrase (the numeric token after the index token following the word
`"score"`); if no diagnostic line yields one, it returns the entire
trimmed standard-output text parsed as a single float; if neither
succeeds, it returns a parse error.  Stated as: the source parser
coincides with the parser written from the claim's words. -/
theorem claim_C5_parseRerankerScore_matches_spec (stdout stderr : String) :
    GGUF.parseRerankerScore stdout stderr = GGUF.parseRerankerScoreSpec stdout stderr := by
  unfold GGUF.parseRerankerScore GGUF.parseRerankerScoreSpec
  rw [findSome?_eq_head?_filterMap]
  cases h : ((splitOnCharM '\n' stderr).filterMap GGUF.lineScore).head? with
  | some v => rfl
  | none =>
    by_cases hs : stdout = ""
    · subst hs
      rw [if_neg (by simp)]
      have h0 : parseFloatM (trimM "") = none := by decide
      rw [h0]
    · rw [if_pos hs]

/-- C6 counterexample: the claim asserts that embedding-mode parsing
fails whenever the first result's vector is entirely zero-valued, but
the rank-pooling variant's `getEmbedding` performs no all-zeros check:
on a response whose first vector is `[0.0]` it returns that zero vector
successfully to the similarity computation. -/
theorem claim_C6_counterexample :
    GGUF.getEmbedding (fun _ => Except.ok [[0]]) "x" = Except.ok [0] := by
  decide

/-- C6 amended: embedding-mode parsing in the embedding variant
(`computeEmbedding`) fails with an error whenever the decoded result
list is empty or the first result's vector is entirely zero-valued, and
in the rank-pooling variant (`getEmbedding`) it fails whenever the
result list is empty (that variant performs no all-zeros check); in
each failing case no embedding is returned. -/
theorem claim_C6_amended_embedding_parse_failures :
    (∀ (run : String → Except String GGUF.EmbResponse) (text : String),
      run text = Except.ok [] →
      GGUF.getEmbedding run text = Except.error "no embedding data returned") ∧
    (∀ (run : String → Except String GGUF.EmbResponse) (cache : GGUFEmb.EmbCache)
      (text : String), List.lookup text cache = none → run text = Except.ok [] →
      GGUFEmb.computeEmbedding run cache text =
        (Except.error "no embedding data returned", cache)) ∧
    (∀ (run : String → Except String GGUF.EmbResponse) (cache : GGUFEmb.EmbCache)
      (text : String) (emb : List ℚ) (rest : GGUF.EmbResponse),
      List.lookup text cache = none → run text = Except.ok (emb :: rest) →
      GGUFEmb.allZeros emb = true →
      GGUFEmb.computeEmbedding run cache text =
        (Except.error "embedding computation returned all zeros", cache)) := by
  refine ⟨?_, ?_, ?_⟩
  · intro run text hrun
    unfold GGUF.getEmbedding
    rw [hrun]
  · intro run cache text hc hrun
    unfold GGUFEmb.computeEmbedding
    rw [hc, hrun]
  · intro run cache text emb rest hc hrun hz
    unfold GGUFEmb.computeEmbedding
    rw [hc, hrun]
    simp [hz]

/-- C6 witness: the amended theorem applied at concrete inputs. -/
theorem claim_C6_witness :
    GGUF.getEmbedding (fun _ => Except.ok []) "t" =
      Except.error "no embedding data returned" ∧
    GGUFEmb.computeEmbedding (fun _ => Except.ok []) [] "t" =
      (Except.error "no embedding data returned", []) ∧
    GGUFEmb.computeEmbedding (fun _ => Except.ok [[0]]) [] "t" =
      (Except.error "embedding computation returned all zeros", []) :=
  ⟨claim_C6_amended_embedding_parse_failures.1 (fun _ => Except.ok []) "t" rfl,
   claim_C6_amended_embedding_parse_failures.2.1 (fun _ => Except.ok []) [] "t" rfl rfl,
   claim_C6_amended_embedding_parse_failures.2.2 (fun _ => Except.ok [[0]]) [] "t"
     [0] [] rfl rfl (by decide)⟩

/-- C7: `cosineSimilarity a b` is `0.0` when the vectors differ in
length or either has zero magnitude (zero sum of squares), and otherwise
equals `dot(a,b)` divided by the product of the Euclidean norms; the
fallback relevance score of `computeEmbeddingSimilarity` is this
similarity multiplied by `10`. -/
theorem claim_C7_cosineSimilarity (a b : List ℝ)
    (embed : String → Except String (List ℝ)) (q d : String) (qe de : List ℝ) :
    (a.length ≠ b.length → cosineSimilarity a b = 0) ∧
    (sumSq a = 0 ∨ sumSq b = 0 → cosineSimilarity a b = 0) ∧
    (a.length = b.length → sumSq a ≠ 0 → sumSq b ≠ 0 →
      cosineSimilarity a b =
        dotList a b / (Real.sqrt (sumSq a) * Real.sqrt (sumSq b))) ∧
    (embed q = Except.ok qe → embed d = Except.ok de →
      computeEmbeddingSimilarity embed q d =
        Except.ok (cosineSimilarity qe de * 10)) := by
  refine ⟨?_, ?_, ?_, ?_⟩
  · intro h
    unfold cosineSimilarity
    rw [if_pos h]
  · intro h
    unfold cosineSimilarity
    by_cases hl : a.length ≠ b.length
    · rw [if_pos hl]
    · rw [if_neg hl, if_pos h]
  · intro hl ha hb
    unfold cosineSimilarity
    rw [if_neg (not_not_intro hl), if_neg (not_or.mpr ⟨ha, hb⟩)]
  · intro hq hd
    unfold computeEmbeddingSimilarity
    rw [hq, hd]

/-- C7 witness: the theorem applied at concrete vectors and a concrete
embedding oracle. -/
theorem claim_C7_witness :
    cosineSimilarity [(1 : ℝ)] [] = 0 ∧
    cosineSimilarity [(1 : ℝ)] [1] =
      dotList [1] [1] / (Real.sqrt (sumSq [1]) * Real.sqrt (sumSq [1])) ∧
    computeEmbeddingSimilarity (fun _ => Except.ok [(1 : ℝ)]) "q" "d" =
      Except.ok (cosineSimilarity [1] [1] * 10) :=
  ⟨(claim_C7_cosineSimilarity [1] [] (fun _ => Except.ok [1]) "q" "d" [1] [1]).1
      (by decide),
   (claim_C7_cosineSimilarity [1] [1] (fun _ => Except.ok [1]) "q" "d" [1] [1]).2.2.1
      rfl (by norm_num [sumSq]) (by norm_num [sumSq]),
   (claim_C7_cosineSimilarity [1] [1] (fun _ => Except.ok [1]) "q" "d" [1] [1]).2.2.2
      rfl rfl⟩

/-- C8: every score successfully computed by the primary rank path or
the embedding fallback is written to the score cache, and on total
per-document failure the cache is left unchanged (so the sentinel
`-5.0`, assigned only in `ComputeScore`, is never cached and a later
call for the same pair scores again instead of hitting the cache). -/
theorem claim_C8_cache_discipline :
    (∀ (tryRerank fallback : String → String → Except String ℚ) (c : GGUF.Cache)
      (q t : String) (s : ℚ), List.lookup (GGUF.cacheKey q t) c = none →
      tryRerank q t = Except.ok s →
      GGUF.computeRerankerScore tryRerank fallback c q t =
        (Except.ok s, (GGUF.cacheKey q t, s) :: c)) ∧
    (∀ (tryRerank fallback : String → String → Except String ℚ) (c : GGUF.Cache)
      (q t : String) (e : String) (s : ℚ), List.lookup (GGUF.cacheKey q t) c = none →
      tryRerank q t = Except.error e → fallback q t = Except.ok s →
      GGUF.computeRerankerScore tryRerank fallback c q t =
        (Except.ok s, (GGUF.cacheKey q t, s) :: c)) ∧
    (∀ (tryRerank fallback : String → String → Except String ℚ) (c : GGUF.Cache)
      (q t : String) (e e2 : String), List.lookup (GGUF.cacheKey q t) c = none →
      tryRerank q t = Except.error e → fallback q t = Except.error e2 →
      GGUF.computeRerankerScore tryRerank fallback c q t = (Except.error e2, c) ∧
      List.lookup (GGUF.cacheKey q t)
        (GGUF.computeRerankerScore tryRerank fallback c q t).2 = none) := by
  refine ⟨?_, ?_, ?_⟩
  · intro tryRerank fallback c q t s hc htr
    unfold GGUF.computeRerankerScore
    rw [hc, htr]
  · intro tryRerank fallback c q t e s hc htr hfb
    unfold GGUF.computeRerankerScore
    rw [hc, htr, hfb]
  · intro tryRerank fallback c q t e e2 hc htr hfb
    have hmain : GGUF.computeRerankerScore tryRerank fallback c q t =
        (Except.error e2, c) := by
      unfold GGUF.computeRerankerScore
      rw [hc, htr, hfb]
    exact ⟨hmain, by rw [hmain]; exact hc⟩

/-- C8 witness: the theorem applied with concrete oracles on the empty
cache. -/
theorem claim_C8_witness :
    GGUF.computeRerankerScore (fun _ _ => Except.ok 3) (fun _ _ => Except.error "f")
      [] "q" "d" = (Except.ok 3, [(GGUF.cacheKey "q" "d", 3)]) ∧
    GGUF.computeRerankerScore (fun _ _ => Except.error "p") (fun _ _ => Except.ok 2)
      [] "q" "d" = (Except.ok 2, [(GGUF.cacheKey "q" "d", 2)]) ∧
    GGUF.computeRerankerScore (fun _ _ => Except.error "p") (fun _ _ => Except.error "f")
      [] "q" "d" = (Except.error "f", []) :=
  ⟨claim_C8_cache_discipline.1 (fun _ _ => Except.ok 3) (fun _ _ => Except.error "f")
      [] "q" "d" 3 rfl rfl,
   claim_C8_cache_discipline.2.1 (fun _ _ => Except.error "p") (fun _ _ => Except.ok 2)
      [] "q" "d" "p" 2 rfl rfl rfl,
   (claim_C8_cache_discipline.2.2 (fun _ _ => Except.error "p")
      (fun _ _ => Except.error "f") [] "q" "d" "p" "f" rfl rfl rfl).1⟩

/-- C1: `ComputeScore` returns one score per input document, in input
order, never shorter.  Stated as: the rank-pooling variant always
succeeds with a score list of the input's length; the embedding variant,
whenever it succeeds, returns a score list of the input's length; and
the score at position `i` belongs to document `i` (here: a document
whose pair is already cached receives exactly its cached score at its
own position). -/
theorem claim_C1_computeScore_length_and_order :
    (∀ (tryRerank fallback : String → String → Except String ℚ) (c : GGUF.Cache)
      (q : String) (docs : List Document),
      (GGUF.ComputeScore tryRerank fallback c q docs).1.map List.length =
        Except.ok docs.length) ∧
    (∀ (run : String → Except String GGUF.EmbResponse)
      (simFn : List ℚ → List ℚ → ℚ) (c c' : GGUFEmb.EmbCache) (q : String)
      (docs : List Document) (scores : List ℚ),
      GGUFEmb.ComputeScore run simFn c q docs = (Except.ok scores, c') →
      scores.length = docs.length) ∧
    (∀ (tryRerank fallback : String → String → Except String ℚ) (c : GGUF.Cache)
      (q : String) (docs : List Document) (i : Nat) (d : Document) (s : ℚ),
      docs.get? i = some d → List.lookup (GGUF.cacheKey q d.content) c = some s →
      (GGUF.scoreLoop tryRerank fallback q docs c).1.get? i = some s) := by
  refine ⟨?_, ?_, ?_⟩
  · intro tryRerank fallback c q docs
    unfold GGUF.ComputeScore
    simp [Except.map, GGUF.length_scoreLoop]
  · intro run simFn c c' q docs scores h
    exact GGUFEmb.length_of_computeScore_ok run simFn q docs c c' scores h
  · intro tryRerank fallback c q docs i d s hget hc
    rw [GGUF.scoreLoop_get? tryRerank fallback q docs c i d hget]
    rw [GGUF.computeRerankerScore_cached tryRerank fallback _ q d.content s
      (GGUF.lookup_scoreLoop_mono tryRerank fallback q _ s (docs.take i) c hc)]
    rfl

/-- C1 witness: the three parts applied at concrete inputs. -/
theorem claim_C1_witness :
    ((GGUF.ComputeScore (fun _ _ => Except.ok 1) (fun _ _ => Except.error "f") [] "q"
        [⟨"1", "a", 0, []⟩, ⟨"2", "b", 0, []⟩]).1.map List.length = Except.ok 2) ∧
    ([(0 : ℚ)].length = [(⟨"1", "a", 0, []⟩ : Document)].length) ∧
    ((GGUF.scoreLoop (fun _ _ => Except.error "p") (fun _ _ => Except.error "f") "q"
        [⟨"1", "a", 0, []⟩] [("q|||a", 5)]).1.get? 0 = some 5) :=
  ⟨claim_C1_computeScore_length_and_order.1 (fun _ _ => Except.ok 1)
      (fun _ _ => Except.error "f") [] "q" [⟨"1", "a", 0, []⟩, ⟨"2", "b", 0, []⟩],
   claim_C1_computeScore_length_and_order.2.1 (fun _ => Except.ok [[1]]) (fun _ _ => 0)
      [] [("a", [1]), ("q", [1])] "q" [⟨"1", "a", 0, []⟩] [0]
      (by simp +decide [GGUFEmb.ComputeScore, GGUFEmb.computeEmbedding,
        GGUFEmb.scoreLoop, GGUFEmb.allZeros, List.lookup]),
   claim_C1_computeScore_length_and_order.2.2 (fun _ _ => Except.error "p")
      (fun _ _ => Except.error "f") [("q|||a", 5)] "q" [⟨"1", "a", 0, []⟩] 0
      ⟨"1", "a", 0, []⟩ 5 rfl (by decide)⟩

/-- C9: a single document's total scoring failure never makes the batch
fail: the rank-pooling `Rerank` always returns a nil error; a document
whose primary and fallback scoring both fail receives the sentinel score
`-5.0` at its own position; and in the embedding variant, when the query
embedding succeeds, a document whose embedding fails receives the
sentinel `-1.0` while `ComputeScore` still succeeds. -/
theorem claim_C9_single_failure_never_aborts :
    (∀ (tryRerank fallback : String → String → Except String ℚ) (cfg : Config)
      (c : GGUF.Cache) (q : String) (docs : List Document),
      ∃ out, (GGUF.Rerank tryRerank fallback cfg c q docs).1 = Except.ok out) ∧
    (∀ (tryRerank fallback : String → String → Except String ℚ) (c : GGUF.Cache)
      (q : String) (docs : List Document) (i : Nat) (d : Document) (e : String),
      docs.get? i = some d →
      (GGUF.computeRerankerScore tryRerank fallback
        (GGUF.scoreLoop tryRerank fallback q (docs.take i) c).2 q d.content).1 =
          Except.error e →
      (GGUF.scoreLoop tryRerank fallback q docs c).1.get? i = some (-5)) ∧
    (∀ (run : String → Except String GGUF.EmbResponse)
      (simFn : List ℚ → List ℚ → ℚ) (c : GGUFEmb.EmbCache) (q : String)
      (d : Document) (ds : List Document) (qe : List ℚ) (c1 : GGUFEmb.EmbCache)
      (e : String) (c2 : GGUFEmb.EmbCache),
      GGUFEmb.computeEmbedding run c q = (Except.ok qe, c1) →
      GGUFEmb.computeEmbedding run c1 d.content = (Except.error e, c2) →
      ∃ scores, (GGUFEmb.ComputeScore run simFn c q (d :: ds)).1 = Except.ok scores ∧
        scores.head? = some (-1)) := by
  refine ⟨?_, ?_, ?_⟩
  · intro tryRerank fallback cfg c q docs
    unfold GGUF.Rerank
    by_cases hd : docs.isEmpty
    · rw [if_pos hd]
      exact ⟨docs, rfl⟩
    · rw [if_neg hd]
      exact ⟨_, rfl⟩
  · intro tryRerank fallback c q docs i d e hget herr
    rw [GGUF.scoreLoop_get? tryRerank fallback q docs c i d hget]
    have hls : GGUF.loopScore (GGUF.computeRerankerScore tryRerank fallback
        (GGUF.scoreLoop tryRerank fallback q (docs.take i) c).2 q d.content) = -5 := by
      unfold GGUF.loopScore
      rw [herr]
    rw [hls]
  · intro run simFn c q d ds qe c1 e c2 hq hd
    refine ⟨(GGUFEmb.scoreLoop run simFn qe (d :: ds) c1).1, ?_, ?_⟩
    · unfold GGUFEmb.ComputeScore
      rw [if_neg (by simp), hq]
    · rw [GGUFEmb.scoreLoop, hd]
      rfl

/-- C9 witness: the three parts applied at concrete inputs (oracles that
always fail for the rank variant; an oracle that embeds the query but
not the document for the embedding variant). -/
theorem claim_C9_witness :
    (∃ out, (GGUF.Rerank (fun _ _ => Except.error "p") (fun _ _ => Except.error "f")
      ⟨"m", 100, 0⟩ [] "q" [⟨"1", "a", 0, []⟩]).1 = Except.ok out) ∧
    ((GGUF.scoreLoop (fun _ _ => Except.error "p") (fun _ _ => Except.error "f") "q"
        [⟨"1", "a", 0, []⟩] []).1.get? 0 = some (-5)) ∧
    (∃ scores, (GGUFEmb.ComputeScore
        (fun t => if t == "q" then Except.ok [[1]] else Except.error "x")
        (fun _ _ => 0) [] "q" [⟨"1", "a", 0, []⟩]).1 = Except.ok scores ∧
      scores.head? = some (-1)) :=
  ⟨claim_C9_single_failure_never_aborts.1 (fun _ _ => Except.error "p")
      (fun _ _ => Except.error "f") ⟨"m", 100, 0⟩ [] "q" [⟨"1", "a", 0, []⟩],
   claim_C9_single_failure_never_aborts.2.1 (fun _ _ => Except.error "p")
      (fun _ _ => Except.error "f") [] "q" [⟨"1", "a", 0, []⟩] 0 ⟨"1", "a", 0, []⟩
      "f" rfl (by decide),
   claim_C9_single_failure_never_aborts.2.2
      (fun t => if t == "q" then Except.ok [[1]] else Except.error "x")
      (fun _ _ => 0) [] "q" ⟨"1", "a", 0, []⟩ [] [1] [("q", [1])]
      "embedding command failed: x" [("q", [1])] (by decide) (by decide)⟩

theorem isEmpty_false_of_ne_nil {α : Type} {l : List α} (h : l ≠ []) :
    l.isEmpty = false := by
  cases l with
  | nil => exact absurd rfl h
  | cons a t => rfl

theorem perm_map_dropScore_sortDesc_applyScores (docs : List Document)
    (scores : List ℚ) (hlen : docs.length = scores.length) :
    ((sortDesc Document.score (GGUF.applyScores docs scores)).map dropScore).Perm
      (docs.map dropScore) := by
  rw [← GGUF.map_dropScore_applyScores docs scores hlen]
  exact (perm_sortDesc Document.score _).map dropScore

/-- C2 counterexample: with `MaxDocs = 1`, threshold `0`, two documents
that both score `1`, and `topN = 2`, `Rank` returns both results, so its
output length `2` exceeds the claimed bound
`min(topN, MaxDocs, len(D)) = 1`: `Rank` never applies the `MaxDocs`
limit. -/
theorem claim_C2_counterexample :
    ((GGUF.Rank (fun _ _ => Except.ok 1) (fun _ _ => Except.error "f")
        ⟨"m", 1, 0⟩ [] "q"
        [⟨"1", "a", 0, []⟩, ⟨"2", "b", 0, []⟩] 2).1.map List.length = Except.ok 2) ∧
    ¬ ((2 : Nat) ≤ min 2 (min 1 2)) := by
  constructor
  · decide
  · decide

/-- C2 amended: for every query, document list and `topN > 0`, the
result of `Rank` has length at most `min(topN, len(D))`; the configured
`MaxDocs` bound is applied by `Rerank`, not by `Rank`.  Proved for the
rank-pooling GGUF `Rank` and the cross-encoder `Rank`. -/
theorem claim_C2_amended_rank_truncation_bound :
    (∀ (tryRerank fallback : String → String → Except String ℚ) (cfg : Config)
      (c : GGUF.Cache) (q : String) (docs : List Document) (topN : Int)
      (out : List RerankResult), 0 < topN →
      (GGUF.Rank tryRerank fallback cfg c q docs topN).1 = Except.ok out →
      out.length ≤ min topN.toNat docs.length) ∧
    (∀ (modelPath : String) (cfg : Config) (q : String) (docs : List Document)
      (topN : Int), 0 < topN →
      (CrossEncoder.Rank modelPath cfg q docs topN).length ≤
        min topN.toNat docs.length) := by
  constructor
  · intro tryRerank fallback cfg c q docs topN out htop hout
    by_cases hnil : docs = []
    · subst hnil
      unfold GGUF.Rank at hout
      rw [if_pos (show ([] : List Document).isEmpty = true from rfl)] at hout
      have h0 : ([] : List RerankResult) = out := Except.ok.inj hout
      rw [← h0]
      simp
    · rw [GGUF.Rank_nonempty_eq tryRerank fallback cfg c q docs topN
        (isEmpty_false_of_ne_nil hnil)] at hout
      have hxo : rankPipeline cfg topN
          (List.zipWith (fun (p : Nat × Document) s => RerankResult.mk p.2 s p.1)
            docs.enum (GGUF.scoreLoop tryRerank fallback q docs c).1) = out :=
        Except.ok.inj hout
      rw [← hxo]
      have hlen : (List.zipWith (fun (p : Nat × Document) s => RerankResult.mk p.2 s p.1)
          docs.enum (GGUF.scoreLoop tryRerank fallback q docs c).1).length =
          docs.length := by
        rw [List.length_zipWith, List.enum_length,
          GGUF.length_scoreLoop tryRerank fallback q docs c]
        exact min_self _
      have hb := length_rankPipeline_le cfg topN
        (List.zipWith (fun (p : Nat × Document) s => RerankResult.mk p.2 s p.1)
          docs.enum (GGUF.scoreLoop tryRerank fallback q docs c).1) htop
      rw [hlen] at hb
      exact hb
  · intro modelPath cfg q docs topN htop
    by_cases hnil : docs = []
    · subst hnil
      unfold CrossEncoder.Rank
      rw [if_pos (show ([] : List Document).isEmpty = true from rfl)]
      simp
    · rw [CrossEncoder.crossRank_nonempty_eq modelPath cfg q docs topN
        (isEmpty_false_of_ne_nil hnil)]
      have hlen : (List.zipWith (fun (p : Nat × Document) s => RerankResult.mk p.2 s p.1)
          docs.enum (CrossEncoder.ComputeScore modelPath q docs)).length =
          docs.length := by
        rw [List.length_zipWith, List.enum_length]
        simp [CrossEncoder.ComputeScore, CrossEncoder.calculateScores]
      have hb := length_rankPipeline_le cfg topN
        (List.zipWith (fun (p : Nat × Document) s => RerankResult.mk p.2 s p.1)
          docs.enum (CrossEncoder.ComputeScore modelPath q docs)) htop
      rw [hlen] at hb
      exact hb

/-- C2 witness: the amended bound applied at concrete inputs. -/
theorem claim_C2_witness :
    ([(⟨⟨"1", "a", 0, []⟩, 1, 0⟩ : RerankResult)].length ≤
      min (Int.toNat 1) [(⟨"1", "a", 0, []⟩ : Document)].length) ∧
    ((CrossEncoder.Rank "x" ⟨"x", 100, 0⟩ "aa" [⟨"1", "aa bb", 0, []⟩] 1).length ≤
      min (Int.toNat 1) 1) :=
  ⟨claim_C2_amended_rank_truncation_bound.1 (fun _ _ => Except.ok 1)
      (fun _ _ => Except.error "f") ⟨"m", 100, 0⟩ [] "q" [⟨"1", "a", 0, []⟩] 1
      [⟨⟨"1", "a", 0, []⟩, 1, 0⟩] (by decide) (by decide),
   claim_C2_amended_rank_truncation_bound.2 "x" ⟨"x", 100, 0⟩ "aa"
      [⟨"1", "aa bb", 0, []⟩] 1 (by decide)⟩

/-- C3 counterexample: `Rerank` does not leave the caller's document
list unchanged: with one document of initial score `0` and a primary
scorer returning `7`, the caller's slice after the call differs from the
original (its `Score` field was overwritten in place). -/
theorem claim_C3_counterexample :
    (GGUF.Rerank (fun _ _ => Except.ok 7) (fun _ _ => Except.error "f")
        ⟨"m", 100, 0⟩ [] "q" [⟨"1", "a", 0, []⟩]).2.1 ≠ [⟨"1", "a", 0, []⟩] := by
  decide

/-- C3 amended: `Rerank` writes the computed scores directly onto the
caller's slice and sorts it in place: after the call the caller's list
is a descending-score sort of the input documents with their `Score`
fields overwritten by the computed scores — the documents' identities
(id, content, metadata) are preserved as a multiset but their scores and
order are modified — and the returned list is the threshold-filtered,
`MaxDocs`-truncated form of that mutated list. -/
theorem claim_C3_amended_rerank_mutates_in_place :
    (∀ (tryRerank fallback : String → String → Except String ℚ) (cfg : Config)
      (c : GGUF.Cache) (q : String) (docs : List Document), docs ≠ [] →
      (GGUF.Rerank tryRerank fallback cfg c q docs).2.1 =
        sortDesc Document.score
          (GGUF.applyScores docs (GGUF.scoreLoop tryRerank fallback q docs c).1) ∧
      ((GGUF.Rerank tryRerank fallback cfg c q docs).2.1.map dropScore).Perm
        (docs.map dropScore) ∧
      (GGUF.Rerank tryRerank fallback cfg c q docs).2.1.Pairwise
        (fun a b => b.score ≤ a.score) ∧
      (GGUF.Rerank tryRerank fallback cfg c q docs).1 =
        Except.ok (rerankFilterTruncate cfg
          ((GGUF.Rerank tryRerank fallback cfg c q docs).2.1))) ∧
    (∀ (run : String → Except String GGUF.EmbResponse)
      (simFn : List ℚ → List ℚ → ℚ) (cfg : Config) (c : GGUFEmb.EmbCache)
      (q : String) (docs : List Document) (scores : List ℚ) (c' : GGUFEmb.EmbCache),
      docs ≠ [] →
      GGUFEmb.ComputeScore run simFn c q docs = (Except.ok scores, c') →
      (GGUFEmb.Rerank run simFn cfg c q docs).2.1 =
        sortDesc Document.score (GGUF.applyScores docs scores) ∧
      ((GGUFEmb.Rerank run simFn cfg c q docs).2.1.map dropScore).Perm
        (docs.map dropScore) ∧
      (GGUFEmb.Rerank run simFn cfg c q docs).2.1.Pairwise
        (fun a b => b.score ≤ a.score) ∧
      (GGUFEmb.Rerank run simFn cfg c q docs).1 =
        Except.ok (rerankFilterTruncate cfg
          ((GGUFEmb.Rerank run simFn cfg c q docs).2.1))) := by
  constructor
  · intro tryRerank fallback cfg c q docs hne
    rw [GGUF.Rerank_nonempty_eq tryRerank fallback cfg c q docs
      (isEmpty_false_of_ne_nil hne)]
    exact ⟨rfl,
      perm_map_dropScore_sortDesc_applyScores docs _
        (GGUF.length_scoreLoop tryRerank fallback q docs c).symm,
      pairwise_sortDesc Document.score _, rfl⟩
  · intro run simFn cfg c q docs scores c' hne hcs
    rw [GGUFEmb.Rerank_ok_eq run simFn cfg c q docs scores c'
      (isEmpty_false_of_ne_nil hne) hcs]
    exact ⟨rfl,
      perm_map_dropScore_sortDesc_applyScores docs scores
        (GGUFEmb.length_of_computeScore_ok run simFn q docs c c' scores hcs).symm,
      pairwise_sortDesc Document.score _, rfl⟩

/-- C3 witness: the amended description applied at concrete inputs for
both variants. -/
theorem claim_C3_witness :
    (GGUF.Rerank (fun _ _ => Except.ok 7) (fun _ _ => Except.error "f") ⟨"m", 100, 0⟩
        [] "q" [⟨"1", "a", 0, []⟩]).2.1 =
      sortDesc Document.score (GGUF.applyScores [⟨"1", "a", 0, []⟩]
        (GGUF.scoreLoop (fun _ _ => Except.ok 7) (fun _ _ => Except.error "f") "q"
          [⟨"1", "a", 0, []⟩] []).1) ∧
    (GGUFEmb.Rerank (fun _ => Except.ok [[1]]) (fun _ _ => 0) ⟨"m", 100, 0⟩ [] "q"
        [⟨"1", "a", 0, []⟩]).2.1 =
      sortDesc Document.score (GGUF.applyScores [⟨"1", "a", 0, []⟩] [0]) :=
  ⟨(claim_C3_amended_rerank_mutates_in_place.1 (fun _ _ => Except.ok 7)
      (fun _ _ => Except.error "f") ⟨"m", 100, 0⟩ [] "q" [⟨"1", "a", 0, []⟩]
      (by decide)).1,
   (claim_C3_amended_rerank_mutates_in_place.2 (fun _ => Except.ok [[1]])
      (fun _ _ => 0) ⟨"m", 100, 0⟩ [] "q" [⟨"1", "a", 0, []⟩] [0]
      [("a", [1]), ("q", [1])] (by decide)
      (by simp +decide [GGUFEmb.ComputeScore, GGUFEmb.computeEmbedding,
        GGUFEmb.scoreLoop, GGUFEmb.allZeros, List.lookup])).1⟩

/-- C4: whenever `Rerank` or `Rank` succeeds, every element of the
output has score at least the configured threshold (so any document
whose computed score is strictly below the threshold is absent), and the
output is sorted in descending score order. -/
theorem claim_C4_threshold_filter_and_descending_order :
    (∀ (tryRerank fallback : String → String → Except String ℚ) (cfg : Config)
      (c : GGUF.Cache) (q : String) (docs : List Document) (out : List Document),
      (GGUF.Rerank tryRerank fallback cfg c q docs).1 = Except.ok out →
      (∀ d ∈ out, cfg.threshold ≤ d.score) ∧
      out.Pairwise (fun a b => b.score ≤ a.score)) ∧
    (∀ (tryRerank fallback : String → String → Except String ℚ) (cfg : Config)
      (c : GGUF.Cache) (q : String) (docs : List Document) (topN : Int)
      (out : List RerankResult),
      (GGUF.Rank tryRerank fallback cfg c q docs topN).1 = Except.ok out →
      (∀ r ∈ out, cfg.threshold ≤ r.score) ∧
      out.Pairwise (fun a b => b.score ≤ a.score)) := by
  constructor
  · intro tryRerank fallback cfg c q docs out hout
    by_cases hnil : docs = []
    · subst hnil
      unfold GGUF.Rerank at hout
      rw [if_pos (show ([] : List Document).isEmpty = true from rfl)] at hout
      have h0 : ([] : List Document) = out := Except.ok.inj hout
      rw [← h0]
      exact ⟨by simp, List.Pairwise.nil⟩
    · rw [GGUF.Rerank_nonempty_eq tryRerank fallback cfg c q docs
        (isEmpty_false_of_ne_nil hnil)] at hout
      have hxo : rerankFilterTruncate cfg (sortDesc Document.score
          (GGUF.applyScores docs (GGUF.scoreLoop tryRerank fallback q docs c).1)) =
          out := Except.ok.inj hout
      rw [← hxo]
      exact ⟨fun d hdm => mem_rerankFilterTruncate cfg _ d hdm,
        pairwise_rerankFilterTruncate cfg _ (pairwise_sortDesc Document.score _)⟩
  · intro tryRerank fallback cfg c q docs topN out hout
    by_cases hnil : docs = []
    · subst hnil
      unfold GGUF.Rank at hout
      rw [if_pos (show ([] : List Document).isEmpty = true from rfl)] at hout
      have h0 : ([] : List RerankResult) = out := Except.ok.inj hout
      rw [← h0]
      exact ⟨by simp, List.Pairwise.nil⟩
    · rw [GGUF.Rank_nonempty_eq tryRerank fallback cfg c q docs topN
        (isEmpty_false_of_ne_nil hnil)] at hout
      have hxo : rankPipeline cfg topN
          (List.zipWith (fun (p : Nat × Document) s => RerankResult.mk p.2 s p.1)
            docs.enum (GGUF.scoreLoop tryRerank fallback q docs c).1) = out :=
        Except.ok.inj hout
      rw [← hxo]
      exact ⟨fun r hrm => mem_rankPipeline cfg topN _ r hrm,
        pairwise_rankPipeline cfg topN _⟩

/-- C4 witness: the theorem applied at concrete inputs for `Rerank` and
`Rank`. -/
theorem claim_C4_witness :
    ((∀ d ∈ [(⟨"1", "a", 7, []⟩ : Document)], (0 : ℚ) ≤ d.score) ∧
      [(⟨"1", "a", 7, []⟩ : Document)].Pairwise (fun a b => b.score ≤ a.score)) ∧
    ((∀ r ∈ [(⟨⟨"1", "a", 0, []⟩, 1, 0⟩ : RerankResult)], (0 : ℚ) ≤ r.score) ∧
      [(⟨⟨"1", "a", 0, []⟩, 1, 0⟩ : RerankResult)].Pairwise
        (fun a b => b.score ≤ a.score)) :=
  ⟨claim_C4_threshold_filter_and_descending_order.1 (fun _ _ => Except.ok 7)
      (fun _ _ => Except.error "f") ⟨"m", 100, 0⟩ [] "q" [⟨"1", "a", 0, []⟩]
      [⟨"1", "a", 7, []⟩] (by decide),
   claim_C4_threshold_filter_and_descending_order.2 (fun _ _ => Except.ok 1)
      (fun _ _ => Except.error "f") ⟨"m", 100, 0⟩ [] "q" [⟨"1", "a", 0, []⟩] 1
      [⟨⟨"1", "a", 0, []⟩, 1, 0⟩] (by decide)⟩

end GoRerankers
